import Mathlib

/-
Shallow embedding of the wolverine-integration Claude Code runtime.

Embedded components (all TypeScript):
  * DefaultOutputParser / JsonOutputParser / ClaudeCodeCommunicator
    (src/runtime/ClaudeCodeCommunicator.ts)
  * ClaudeCodeProcessSpawner (src/runtime/ClaudeCodeProcessSpawner.ts)
  * ClaudeCodeRuntime configuration validation (src/runtime/ClaudeCodeRuntime.ts)

Strings handled character-by-character are embedded as `List Char`;
identifiers and whole-string values are embedded as `String`.  JavaScript
runtime values flowing through JSON.parse are embedded as the `Json`
inductive below; `undefined` becomes `Option.none` where a field may be
absent.  Machine integers do not occur (all numbers involved are array
lengths and millisecond timestamps, which JavaScript represents exactly).
-/

namespace Wolverine

/-! ## JavaScript string primitives (on `List Char`) -/

/-- Models JavaScript `hay.includes(needle)`: substring containment. -/
def includesSub (hay needle : List Char) : Bool :=
  decide (needle <:+: hay)

/-- Models JavaScript `hay.endsWith(needle)`: suffix test. -/
def endsWithSub (hay needle : List Char) : Bool :=
  decide (needle <:+ hay)

/-- Models JavaScript `hay.startsWith(needle)` (used for regex scanning). -/
def startsWithSub (needle hay : List Char) : Bool :=
  decide (needle <+: hay)

/-- Characters matched by the JavaScript regex class `\s` (the common ones:
space, tab, line feed, carriage return, vertical tab, form feed). -/
def isJsWhitespace (c : Char) : Bool :=
  c == ' ' || c == '\t' || c == '\n' || c == '\r' || c == '\x0b' || c == '\x0c'

/-! ## JavaScript values decoded from JSON (`JSON.parse` results)

`Json.num` stores the source lexeme of the number rather than a float: no
claim inspects numeric values, only decodability and field tags, and this
keeps the embedding exact (no floating point). -/

mutual
inductive Json where
  | null : Json
  | bool (b : Bool) : Json
  | num (lexeme : List Char) : Json
  | str (s : List Char) : Json
  | arr (xs : JsonArr) : Json
  | obj (fields : JsonObj) : Json
deriving DecidableEq
inductive JsonArr where
  | nil : JsonArr
  | cons (hd : Json) (tl : JsonArr) : JsonArr
deriving DecidableEq
inductive JsonObj where
  | nil : JsonObj
  | cons (key : List Char) (val : Json) (tl : JsonObj) : JsonObj
deriving DecidableEq
end

/-- Property access `obj[k]` on a decoded JSON object: JavaScript keeps the
last duplicate key, so the lookup prefers later fields. -/
def objLookup : JsonObj → List Char → Option Json
  | .nil, _ => none
  | .cons key v tl, k =>
    match objLookup tl k with
    | some r => some r
    | none => if key = k then some v else none

/-- Models JavaScript property access `j.k`: `undefined` (here `none`) on
anything that is not an object with that key. -/
def getField (j : Json) (k : List Char) : Option Json :=
  match j with
  | .obj fs => objLookup fs k
  | _ => none

/-- True when a JSON number lexeme denotes zero: every digit of the mantissa
(the part before any exponent) is `0`. -/
def mantissaZero (lexeme : List Char) : Bool :=
  (lexeme.takeWhile (fun c => !(c == 'e' || c == 'E'))).all
    (fun c => !c.isDigit || c == '0')

/-- JavaScript truthiness of a decoded JSON value. -/
def jsTruthy : Json → Bool
  | .null => false
  | .bool b => b
  | .num lex => !(mantissaZero lex)
  | .str s => !s.isEmpty
  | .arr _ => true
  | .obj _ => true

/-- Models JavaScript `x || d` where `x` may be `undefined` (`none`). -/
def jsOr (v : Option Json) (dflt : Json) : Json :=
  match v with
  | some j => if jsTruthy j then j else dflt
  | none => dflt

/-! ## ParsedOutput (ClaudeCodeCommunicator.ts, interface ParsedOutput) -/

/-- The `type` discriminator of a `ParsedOutput`. -/
inductive OutputType where
  | status : OutputType
  | result : OutputType
  | error : OutputType
  | prompt : OutputType
  | raw : OutputType
deriving DecidableEq

/-- Embeds interface `ParsedOutput`.  Optional TypeScript fields become
defaults: `isComplete?` is `false` when absent (JavaScript treats the
`undefined` of an absent field as falsy wherever the code tests it), `data`
and `error` become `Option`. -/
structure ParsedOutput where
  type : OutputType
  content : Json
  data : Option Json := none
  isComplete : Bool := false
  error : Option Json := none
deriving DecidableEq

/-! ## DefaultOutputParser (heuristic text strategy)

Its only state is the accumulated `buffer`; `parse` is embedded as a function
from (buffer, chunk) to (result, new buffer). -/

/-- The lazy group `(.+?)(?:\n|$)` of the error regex, tried at one position:
it succeeds iff a non-newline character starts here, and then captures up to
(excluding) the first newline, or to the end of input. -/
def lazyGroupAt (s : List Char) : Option (List Char) :=
  match s with
  | [] => none
  | c :: _ =>
    if c = '\n' then none
    else some (s.takeWhile (fun d => !(d == '\n')))

/-- Backtracking over the greedy `\s*` of the error regex: try consuming `k`
whitespace characters, largest `k` first. -/
def wsThenGroup (s : List Char) : Nat → Option (List Char)
  | 0 => lazyGroupAt s
  | k+1 =>
    match lazyGroupAt (s.drop (k+1)) with
    | some g => some g
    | none => wsThenGroup s k

/-- Match of `\s*(.+?)(?:\n|$)` at the start of `s` (the position right after
a literal `Error:`), returning the captured group. -/
def matchAfterMarker (s : List Char) : Option (List Char) :=
  wsThenGroup s (s.takeWhile isJsWhitespace).length

/-- Leftmost match of the regex `/Error:\s*(.+?)(?:\n|$)/`, returning the
captured group, scanning like the JavaScript regex engine does. -/
def findErrorGroup : List Char → Option (List Char)
  | [] => none
  | c :: rest =>
    match
      (if startsWithSub ("Error:".data) (c :: rest)
       then matchAfterMarker ((c :: rest).drop 6)
       else none) with
    | some g => some g
    | none => findErrorGroup rest

/-- Embeds `DefaultOutputParser.extractError`: the regex capture if the regex
matches, otherwise the whole text. -/
def extractError (text : List Char) : List Char :=
  match findErrorGroup text with
  | some g => g
  | none => text

/-- The completion test of `DefaultOutputParser.parse`:
`buffer.includes('Task completed') || buffer.includes('Done')`. -/
def hasCompletionMarker (buf : List Char) : Bool :=
  includesSub buf ("Task completed".data) || includesSub buf ("Done".data)

/-- The error test of `DefaultOutputParser.parse`:
`buffer.includes('Error:') || buffer.includes('Failed')`. -/
def hasErrorMarker (buf : List Char) : Bool :=
  includesSub buf ("Error:".data) || includesSub buf ("Failed".data)

/-- The prompt test of `DefaultOutputParser.parse`:
`buffer.endsWith('?') || buffer.includes('Please provide')`. -/
def hasPromptShape (buf : List Char) : Bool :=
  endsWithSub buf ("?".data) || includesSub buf ("Please provide".data)

/-- Embeds `DefaultOutputParser.parse`.  The chunk is appended to the buffer,
then the buffer is classified: completion markers, then error markers, then
prompt phrasing, otherwise `raw` (whose content is the chunk alone).  Returns
the `ParsedOutput` and the updated buffer. -/
def DefaultOutputParser.parse (buffer output : List Char) :
    ParsedOutput × List Char :=
  let buf := buffer ++ output
  if hasCompletionMarker buf then
    ({ type := .result, content := .str buf, isComplete := true }, buf)
  else if hasErrorMarker buf then
    ({ type := .error, content := .str buf,
       error := some (.str (extractError buf)) }, buf)
  else if hasPromptShape buf then
    ({ type := .prompt, content := .str buf }, buf)
  else
    ({ type := .raw, content := .str output }, buf)

/-- Feeds a list of chunks to a `DefaultOutputParser` starting from the given
buffer, returning the last parse result (`none` for an empty chunk list) and
the final buffer. -/
def DefaultOutputParser.feed (buffer : List Char) :
    List (List Char) → Option ParsedOutput × List Char
  | [] => (none, buffer)
  | [c] =>
    let r := DefaultOutputParser.parse buffer c
    (some r.1, r.2)
  | c :: c2 :: cs =>
    DefaultOutputParser.feed (DefaultOutputParser.parse buffer c).2 (c2 :: cs)

/-! ## JSON.parse model (used by JsonOutputParser)

A fuelled recursive-descent parser for JSON (RFC 8259 grammar: the same
language `JSON.parse` accepts).  Fuel is structural so every theorem about
concrete inputs evaluates inside the kernel; the entry point supplies more
fuel than any input of that length can consume. -/

/-- JSON insignificant whitespace (space, tab, line feed, carriage return). -/
def skipWs (s : List Char) : List Char :=
  s.dropWhile (fun c => c == ' ' || c == '\t' || c == '\n' || c == '\r')

/-- Hexadecimal digit value, for `\u` escapes. -/
def hexVal (c : Char) : Option Nat :=
  if '0' ≤ c ∧ c ≤ '9' then some (c.toNat - 48)
  else if 'a' ≤ c ∧ c ≤ 'f' then some (c.toNat - 87)
  else if 'A' ≤ c ∧ c ≤ 'F' then some (c.toNat - 55)
  else none

/-- Body of a JSON string literal, after the opening quote: returns the
decoded characters and the remaining input after the closing quote.  Raw
control characters are rejected, escapes are decoded (`Char.ofNat` of a
`\u` code unit; lone surrogates degrade to the replacement behaviour of
`Char.ofNat`, which no claim inspects). -/
def parseStringBody : Nat → List Char → Option (List Char × List Char)
  | 0, _ => none
  | fuel+1, s =>
    match s with
    | [] => none
    | c :: rest =>
      if c = '"' then some ([], rest)
      else if c = '\\' then
        match rest with
        | [] => none
        | e :: rest2 =>
          let cont := fun (ch : Char) (r : List Char) =>
            (parseStringBody fuel r).map (fun p => (ch :: p.1, p.2))
          if e = '"' then cont '"' rest2
          else if e = '\\' then cont '\\' rest2
          else if e = '/' then cont '/' rest2
          else if e = 'b' then cont '\x08' rest2
          else if e = 'f' then cont '\x0c' rest2
          else if e = 'n' then cont '\n' rest2
          else if e = 'r' then cont '\r' rest2
          else if e = 't' then cont '\t' rest2
          else if e = 'u' then
            match rest2 with
            | h1 :: h2 :: h3 :: h4 :: rest3 =>
              match hexVal h1, hexVal h2, hexVal h3, hexVal h4 with
              | some a, some b, some c2, some d =>
                cont (Char.ofNat (((a * 16 + b) * 16 + c2) * 16 + d)) rest3
              | _, _, _, _ => none
            | _ => none
          else none
      else if c.toNat < 32 then none
      else (parseStringBody fuel rest).map (fun p => (c :: p.1, p.2))

/-- Optional exponent part of a JSON number (and end of the lexeme). -/
def numAfterFrac (acc : List Char) (s : List Char) :
    Option (List Char × List Char) :=
  match s with
  | [] => some (acc, [])
  | c :: t =>
    if c = 'e' ∨ c = 'E' then
      match t with
      | [] => none
      | c2 :: t2 =>
        if c2 = '+' ∨ c2 = '-' then
          let ds := t2.takeWhile Char.isDigit
          if ds = [] then none
          else some (acc ++ c :: c2 :: ds, t2.dropWhile Char.isDigit)
        else
          let ds := t.takeWhile Char.isDigit
          if ds = [] then none
          else some (acc ++ c :: ds, t.dropWhile Char.isDigit)
    else some (acc, c :: t)

/-- Optional fraction part of a JSON number. -/
def numAfterInt (acc : List Char) (s : List Char) :
    Option (List Char × List Char) :=
  match s with
  | '.' :: t =>
    let ds := t.takeWhile Char.isDigit
    if ds = [] then none
    else numAfterFrac (acc ++ '.' :: ds) (t.dropWhile Char.isDigit)
  | _ => numAfterFrac acc s

/-- JSON number lexeme: optional minus, integer part without leading zeros,
optional fraction, optional exponent.  Returns the lexeme and the rest. -/
def parseNumLexeme (s : List Char) : Option (List Char × List Char) :=
  let signed := match s with
    | '-' :: t => (('-' : Char) :: [], t)
    | _ => (([] : List Char), s)
  match signed.2 with
  | [] => none
  | c :: t =>
    if c = '0' then numAfterInt (signed.1 ++ ['0']) t
    else if c.isDigit then
      numAfterInt (signed.1 ++ (c :: t).takeWhile Char.isDigit)
        ((c :: t).dropWhile Char.isDigit)
    else none

mutual
/-- One JSON value, preceded by optional whitespace. -/
def parseVal : Nat → List Char → Option (Json × List Char)
  | 0, _ => none
  | fuel+1, input =>
    match skipWs input with
    | [] => none
    | c :: rest =>
      if c = '\x7b' then parseObjStart fuel rest
      else if c = '[' then parseArrStart fuel rest
      else if c = '"' then
        (parseStringBody (rest.length + 1) rest).map
          (fun p => (Json.str p.1, p.2))
      else if c = 't' then
        if startsWithSub ("rue".data) rest then some (.bool true, rest.drop 3)
        else none
      else if c = 'f' then
        if startsWithSub ("alse".data) rest then some (.bool false, rest.drop 4)
        else none
      else if c = 'n' then
        if startsWithSub ("ull".data) rest then some (.null, rest.drop 3)
        else none
      else if c = '-' ∨ c.isDigit then
        (parseNumLexeme (c :: rest)).map (fun p => (Json.num p.1, p.2))
      else none

/-- Array, after the opening bracket. -/
def parseArrStart : Nat → List Char → Option (Json × List Char)
  | 0, _ => none
  | fuel+1, input =>
    match skipWs input with
    | ']' :: rest => some (.arr .nil, rest)
    | _ => (parseArrItems fuel input).map (fun p => (Json.arr p.1, p.2))

/-- One or more comma-separated array items, up to the closing bracket. -/
def parseArrItems : Nat → List Char → Option (JsonArr × List Char)
  | 0, _ => none
  | fuel+1, input =>
    match parseVal fuel input with
    | none => none
    | some (v, rest) =>
      match skipWs rest with
      | ',' :: rest2 =>
        (parseArrItems fuel rest2).map (fun p => (JsonArr.cons v p.1, p.2))
      | ']' :: rest2 => some (.cons v .nil, rest2)
      | _ => none

/-- Object, after the opening brace. -/
def parseObjStart : Nat → List Char → Option (Json × List Char)
  | 0, _ => none
  | fuel+1, input =>
    match skipWs input with
    | '\x7d' :: rest => some (.obj .nil, rest)
    | _ => (parseObjItems fuel input).map (fun p => (Json.obj p.1, p.2))

/-- One or more comma-separated object members, up to the closing brace. -/
def parseObjItems : Nat → List Char → Option (JsonObj × List Char)
  | 0, _ => none
  | fuel+1, input =>
    match skipWs input with
    | '"' :: rest =>
      match parseStringBody (rest.length + 1) rest with
      | none => none
      | some (key, rest2) =>
        match skipWs rest2 with
        | ':' :: rest3 =>
          match parseVal fuel rest3 with
          | none => none
          | some (v, rest4) =>
            match skipWs rest4 with
            | ',' :: rest5 =>
              (parseObjItems fuel rest5).map
                (fun p => (JsonObj.cons key v p.1, p.2))
            | '\x7d' :: rest5 => some (.cons key v .nil, rest5)
            | _ => none
        | _ => none
    | _ => none
end

/-- Embeds `JSON.parse(output)` as a partial function: `none` exactly where
the JavaScript call throws.  The whole input must be consumed apart from
trailing whitespace. -/
def jsonParse (s : List Char) : Option Json :=
  match parseVal (8 * (s.length + 1)) s with
  | some (v, rest) => if skipWs rest = [] then some v else none
  | none => none

/-! ## JSON.stringify model (pretty-printed with indent 2)

Only used to fill the `content` field of `status` outputs; number
re-serialization is approximated by the stored lexeme. -/

/-- Indentation. -/
def nSpaces (n : Nat) : List Char := List.replicate n ' '

/-- Hex digit for string escapes. -/
def hexDigitChar (n : Nat) : Char :=
  if n < 10 then Char.ofNat (48 + n) else Char.ofNat (87 + n)

/-- Escape one character of a JSON string per `JSON.stringify`. -/
def escJsonChar (c : Char) : List Char :=
  if c = '"' then ['\\', '"']
  else if c = '\\' then ['\\', '\\']
  else if c = '\n' then ['\\', 'n']
  else if c = '\r' then ['\\', 'r']
  else if c = '\t' then ['\\', 't']
  else if c = '\x08' then ['\\', 'b']
  else if c = '\x0c' then ['\\', 'f']
  else if c.toNat < 32 then
    ['\\', 'u', '0', '0', hexDigitChar (c.toNat / 16), hexDigitChar (c.toNat % 16)]
  else [c]

/-- Escape a JSON string body. -/
def escJsonStr (s : List Char) : List Char :=
  s.foldr (fun c acc => escJsonChar c ++ acc) []

/-- Join rendered items with a separator. -/
def joinSep (sep : List Char) : List (List Char) → List Char
  | [] => []
  | [x] => x
  | x :: y :: xs => x ++ sep ++ joinSep sep (y :: xs)

mutual
/-- Embeds `JSON.stringify(j, null, 2)` at indentation level `ind`. -/
def stringifyVal : Nat → Nat → Json → List Char
  | 0, _, _ => []
  | fuel+1, ind, j =>
    match j with
    | .null => "null".data
    | .bool true => "true".data
    | .bool false => "false".data
    | .num lex => lex
    | .str s => '"' :: (escJsonStr s ++ ['"'])
    | .arr .nil => "[]".data
    | .arr (.cons hd tl) =>
      let items := stringifyArrItems fuel (ind + 2) (.cons hd tl)
      '[' :: '\n' ::
        (joinSep (',' :: '\n' :: []) (items.map (fun it => nSpaces (ind + 2) ++ it))
          ++ '\n' :: (nSpaces ind ++ [']']))
    | .obj .nil => "\x7b\x7d".data
    | .obj (.cons k v tl) =>
      let items := stringifyObjItems fuel (ind + 2) (.cons k v tl)
      '\x7b' :: '\n' ::
        (joinSep (',' :: '\n' :: []) (items.map (fun it => nSpaces (ind + 2) ++ it))
          ++ '\n' :: (nSpaces ind ++ ['\x7d']))

/-- Rendered array items. -/
def stringifyArrItems : Nat → Nat → JsonArr → List (List Char)
  | 0, _, _ => []
  | _+1, _, .nil => []
  | fuel+1, ind, .cons hd tl =>
    stringifyVal fuel ind hd :: stringifyArrItems fuel ind tl

/-- Rendered object members (`"key": value`). -/
def stringifyObjItems : Nat → Nat → JsonObj → List (List Char)
  | 0, _, _ => []
  | _+1, _, .nil => []
  | fuel+1, ind, .cons k v tl =>
    ('"' :: (escJsonStr k ++ '"' :: ':' :: ' ' :: stringifyVal fuel ind v))
      :: stringifyObjItems fuel ind tl
end

mutual
/-- Structural size of a JSON value, used as stringify fuel. -/
def jsonSize : Json → Nat
  | .null => 1
  | .bool _ => 1
  | .num _ => 1
  | .str _ => 1
  | .arr xs => 1 + jsonArrSize xs
  | .obj fs => 1 + jsonObjSize fs

/-- Structural size of a JSON array. -/
def jsonArrSize : JsonArr → Nat
  | .nil => 1
  | .cons hd tl => 1 + jsonSize hd + jsonArrSize tl

/-- Structural size of a JSON object. -/
def jsonObjSize : JsonObj → Nat
  | .nil => 1
  | .cons _ v tl => 1 + jsonSize v + jsonObjSize tl
end

/-- Embeds `JsonOutputParser.parse`: decode the chunk, classify by the `type`
tag; any throw inside the `try` degrades to `raw` with the chunk unchanged.
The `catch` covers two events: `JSON.parse` failing, and the `data.type`
property access throwing — which, among the values `JSON.parse` can return,
happens exactly for `null` (property access on any other decoded value, a
boolean, number, string, array or object, yields `undefined` instead of
throwing).  The embedding is total, as the source method never throws. -/
def JsonOutputParser.parse (output : List Char) : ParsedOutput :=
  match jsonParse output with
  | some data =>
    if data = Json.null then { type := .raw, content := .str output }
    else if getField data ("type".data) = some (.str ("completion".data)) then
      { type := .result, content := jsOr (getField data ("result".data)) (.str []),
        data := some data, isComplete := true }
    else if getField data ("type".data) = some (.str ("error".data)) then
      { type := .error, content := jsOr (getField data ("message".data)) (.str []),
        data := some data, error := getField data ("message".data) }
    else
      { type := .status,
        content := .str (stringifyVal (jsonSize data + 1) 0 data),
        data := some data }
  | none => { type := .raw, content := .str output }

/-! ## ClaudeCodeCommunicator

Two aspects are embedded.

`waitForCompletion(sessionId, timeoutMs)` registers a one-shot output handler
racing a `setTimeout(timeoutMs)` timer.  Its asynchronous run is embedded as
a function over the chronologically ordered list of `ParsedOutput`s delivered
to that session's handler, each tagged with its arrival time in milliseconds;
an output is seen by the handler iff it arrives strictly before the timer
fires.  The handler map is embedded as the list of session ids that currently
have a handler (`outputHandlers : Map<string, handler>`; only the keys
matter here).

The communicator's `output`-event subscription feeds every session's raw
chunks through the one shared parser instance; `processOutputs` embeds that
dispatch loop for the default heuristic parser. -/

/-- Session ids with a registered output handler, after `onOutput sid`:
`Map.set` semantics (at most one handler per id). -/
def insertHandler (hs : List String) (sid : String) : List String :=
  if sid ∈ hs then hs else hs ++ [sid]

/-- After `offOutput sid`: `Map.delete` semantics. -/
def removeHandler (hs : List String) (sid : String) : List String :=
  hs.filter (fun h => !(h == sid))

/-- The handler body's terminal test: `output.isComplete || output.type ===
'error'`. -/
def isTerminalOutput (o : ParsedOutput) : Bool :=
  o.isComplete || o.type == .error

/-- The rejection value built from an error output: `new Error(output.error
|| 'Task failed')`. -/
def errMessage (o : ParsedOutput) : Json :=
  jsOr o.error (.str ("Task failed".data))

/-- The timer's rejection message. -/
def timeoutMessage (sessionId : String) : String :=
  "Timeout waiting for completion: " ++ sessionId

/-- How one call to `waitForCompletion` settles. -/
inductive WaitOutcome where
  | resolved (output : ParsedOutput)
  | rejectedError (message : Json)
  | rejectedTimeout (message : String)
deriving DecidableEq

/-- A settled `waitForCompletion` call: its outcome, the millisecond at which
it settled, and the handler map afterwards. -/
structure WaitResult where
  outcome : WaitOutcome
  settledAt : Nat
  handlers : List String
deriving DecidableEq

/-- Embeds the run of `waitForCompletion sessionId timeoutMs` over the timed
outputs delivered for that session (times nondecreasing): the first output
arriving before the timer with `isComplete` or type `error` settles the
promise (error → reject, otherwise resolve) and deregisters the handler; if
none arrives before `timeoutMs`, the timer rejects at `timeoutMs` and
deregisters the handler. -/
def waitForCompletion (sessionId : String) (timeoutMs : Nat) (hs : List String) :
    List (Nat × ParsedOutput) → WaitResult
  | [] =>
    ⟨.rejectedTimeout (timeoutMessage sessionId), timeoutMs,
      removeHandler (insertHandler hs sessionId) sessionId⟩
  | (t, o) :: rest =>
    if timeoutMs ≤ t then
      ⟨.rejectedTimeout (timeoutMessage sessionId), timeoutMs,
        removeHandler (insertHandler hs sessionId) sessionId⟩
    else if isTerminalOutput o then
      if o.type = .error then
        ⟨.rejectedError (errMessage o), t,
          removeHandler (insertHandler hs sessionId) sessionId⟩
      else
        ⟨.resolved o, t, removeHandler (insertHandler hs sessionId) sessionId⟩
    else waitForCompletion sessionId timeoutMs hs rest

/-- Communicator-side state relevant to output classification: the single
shared `DefaultOutputParser` buffer and the `parsed-output` events emitted so
far (session id paired with the classification). -/
structure CommState where
  buffer : List Char
  emitted : List (String × ParsedOutput)
deriving DecidableEq

/-- Embeds the communicator's `output`-event subscription for one raw chunk
of one session: the shared parser classifies it and a `parsed-output` event
is emitted for that session. -/
def handleOutputEvent (st : CommState) (ev : String × List Char) : CommState :=
  let pr := DefaultOutputParser.parse st.buffer ev.2
  { buffer := pr.2, emitted := st.emitted ++ [(ev.1, pr.1)] }

/-- The dispatch loop over a chronological list of raw `output` events
(session id, chunk), all funnelled through the same shared parser. -/
def processOutputs (st : CommState) (evs : List (String × List Char)) : CommState :=
  evs.foldl handleOutputEvent st

/-! ## ClaudeCodeProcessSpawner -/

/-- Session lifecycle states. -/
inductive SessState where
  | starting : SessState
  | running : SessState
  | idle : SessState
  | errorState : SessState
  | stopped : SessState
deriving DecidableEq

/-- Embeds interface `ClaudeCodeSession` (timestamps as milliseconds). -/
structure Session where
  sessionId : String
  agentId : String
  pid : Nat
  workdir : String
  task : String
  startedAt : Nat
  lastActivity : Nat
  state : SessState
  outputBuffer : List String
deriving DecidableEq

/-- Raw side effects on a pseudo-terminal, recorded for observation. -/
inductive PtyAction where
  | writeTo (sid : String) (data : String)
  | kill (sid : String) (signal : String)
deriving DecidableEq

/-- Events emitted by the spawner (only the fields the claims observe). -/
inductive SpEvent where
  | startedEv (sid : String) (pid : Nat)
  | outputEv (sid : String) (data : String)
  | stoppedEv (sid : String) (exitCode : Option Nat)
deriving DecidableEq

/-- Spawner state: the session registry (`activeSessions` map, embedded as an
association list with unique keys), the events emitted so far, and the pty
actions performed so far. -/
structure SpawnerState where
  sessions : List (String × Session)
  events : List SpEvent
  actions : List PtyAction
deriving DecidableEq

/-- `activeSessions.get(sid)`. -/
def lookupSession : List (String × Session) → String → Option Session
  | [], _ => none
  | (k, s) :: tl, sid => if k = sid then some s else lookupSession tl sid

/-- `activeSessions.set(sid, s)` for a key already present: replace. -/
def setSession : List (String × Session) → String → Session → List (String × Session)
  | [], _, _ => []
  | (k, s) :: tl, sid, s2 =>
    if k = sid then (k, s2) :: tl else (k, s) :: setSession tl sid s2

/-- `activeSessions.delete(sid)`: removing an absent key is a no-op. -/
def removeSession (l : List (String × Session)) (sid : String) :
    List (String × Session) :=
  l.filter (fun p => !(p.1 == sid))

/-- Embeds `ClaudeCodeProcessSpawner.write(sessionId, input)`: `NotFound`
failure when the id is absent, otherwise a pty write plus a `lastActivity`
refresh (`now` is the clock reading of `new Date()`). -/
def ProcessSpawner.write (st : SpawnerState) (sid input : String) (now : Nat) :
    Except String SpawnerState :=
  match lookupSession st.sessions sid with
  | none => .error ("Session " ++ sid ++ " not found")
  | some s =>
    .ok { st with
      actions := st.actions ++ [.writeTo sid input],
      sessions := setSession st.sessions sid { s with lastActivity := now } }

/-- The unconditional tail of `stop` for a session that was found: the
closure's session object is marked `stopped` (mutation of an object that may
no longer be in the registry — observable only through the registry when
still present, and it is deleted in the same breath), the registry entry is
deleted, and a `stopped` event (without exit code) is emitted. -/
def stopFinalize (st : SpawnerState) (sid : String) : SpawnerState :=
  { st with
    sessions := removeSession st.sessions sid,
    events := st.events ++ [.stoppedEv sid none] }

/-- First half of a non-forced `stop` on a registered session, up to the
grace-window sleep: the interrupt control byte is written to the pty. -/
def stopBeginGraceful (st : SpawnerState) (sid : String) : SpawnerState :=
  { st with actions := st.actions ++ [.writeTo sid "\x03"] }

/-- Second half of a non-forced `stop`, after the grace window: escalate with
SIGTERM only if the session is still registered, then finalize. -/
def stopResumeAfterGrace (st : SpawnerState) (sid : String) : SpawnerState :=
  let st1 :=
    if (lookupSession st.sessions sid).isSome
    then { st with actions := st.actions ++ [.kill sid "SIGTERM"] }
    else st
  stopFinalize st1 sid

/-- Embeds `ClaudeCodeProcessSpawner.stop(sessionId, force)` when nothing
interleaves with the grace window: an absent id is logged and returns with no
state change and no event; a forced stop SIGKILLs and finalizes; a non-forced
stop interrupts, waits, escalates (still registered in this atomic run) and
finalizes. -/
def ProcessSpawner.stop (st : SpawnerState) (sid : String) (force : Bool) :
    SpawnerState :=
  match lookupSession st.sessions sid with
  | none => st
  | some _ =>
    if force then
      stopFinalize { st with actions := st.actions ++ [.kill sid "SIGKILL"] } sid
    else
      stopResumeAfterGrace (stopBeginGraceful st sid) sid

/-- Embeds the pty `onExit` callback for the process of session `sid` (the
session object is captured by the closure, so this runs whether or not the
registry still holds the id): terminal transition on the captured object,
registry delete (no-op when absent), and a `stopped` event carrying the exit
code. -/
def ProcessSpawner.onExit (st : SpawnerState) (sid : String) (exitCode : Nat) :
    SpawnerState :=
  { st with
    sessions := removeSession st.sessions sid,
    events := st.events ++ [.stoppedEv sid (some exitCode)] }

/-- The run of `stop(sessionId, force=false)` on a registered session whose
process exits naturally during the grace window: interrupt written, then the
`onExit` callback fires, then the sleeping `stop` resumes. -/
def stopGracefulExitDuringGrace (st : SpawnerState) (sid : String)
    (exitCode : Nat) : SpawnerState :=
  stopResumeAfterGrace (ProcessSpawner.onExit (stopBeginGraceful st sid) sid exitCode) sid

/-- Count of `stopped` events emitted for a session. -/
def countStopped (events : List SpEvent) (sid : String) : Nat :=
  events.countP (fun e =>
    match e with
    | .stoppedEv s _ => s == sid
    | _ => false)

/-- Embeds the output-buffer maintenance of the pty `onData` callback: push
the chunk, then drop the oldest entry when the buffer exceeds 100. -/
def pushOutputChunk (buffer : List String) (data : String) : List String :=
  let b := buffer ++ [data]
  if 100 < b.length then b.tail else b

/-! ## Spawn options, agent configuration, command arguments -/

/-- Embeds interface `ClaudeCodeConfig` (the fields `buildCommandArgs` and
validation read). -/
structure ClaudeCodeConfig where
  binaryPath : Option String := none
  permissionMode : Option String := none
  model : Option String := none
  workdir : Option String := none
  agentTeams : Bool := false
deriving DecidableEq

/-- Embeds interface `AgentConfig` (the fields the runtime reads).  The
optional `runtime` discriminator is a string (`none` = absent). -/
structure AgentConfig where
  id : String
  name : String := ""
  runtime : Option String := none
  workspace : String
  agentDir : String := ""
  claudeCode : Option ClaudeCodeConfig := none
deriving DecidableEq

/-- Embeds interface `ClaudeCodeSpawnOptions` (the fields `buildCommandArgs`
reads; `continue` is a Lean keyword, embedded as `continueFlag`). -/
structure SpawnOptions where
  task : String := ""
  resumeSessionId : Option String := none
  continueFlag : Bool := false
  permissionMode : Option String := none
  model : Option String := none
  enableTeams : Bool := false
  outputFormat : Option String := none
deriving DecidableEq

/-- JavaScript truthiness of an optional string (absent and empty are falsy). -/
def truthyS : Option String → Bool
  | none => false
  | some s => !(s == "")

/-- Models `a || b` on optional strings. -/
def jsOrS (a b : Option String) : Option String :=
  if truthyS a then a else b

/-- Models `a || d` with a string literal default. -/
def jsOrSD (a : Option String) (d : String) : String :=
  match a with
  | some s => if s = "" then d else s
  | none => d

/-- Embeds `ClaudeCodeProcessSpawner.buildCommandArgs`: `--resume <id>` when
a resume id is truthy, else `--continue` when the continue flag is set; then
`--permission-mode` (spawn option, else agent configuration, else
`bypassPermissions`); then `--model` when the spawn option or the agent
configuration has a truthy model; then `--output-format` when the spawn
option has one. -/
def buildCommandArgs (agent : AgentConfig) (options : SpawnOptions) :
    List String :=
  let claudeConfig := agent.claudeCode.getD {}
  let resumeArgs :=
    if truthyS options.resumeSessionId then
      ["--resume", options.resumeSessionId.getD ""]
    else if options.continueFlag then ["--continue"]
    else []
  let permissionMode :=
    jsOrSD (jsOrS options.permissionMode claudeConfig.permissionMode)
      "bypassPermissions"
  let model := jsOrS options.model claudeConfig.model
  let modelArgs := if truthyS model then ["--model", model.getD ""] else []
  let formatArgs :=
    if truthyS options.outputFormat then
      ["--output-format", options.outputFormat.getD ""]
    else []
  resumeArgs ++ ["--permission-mode", permissionMode] ++ modelArgs ++ formatArgs

/-- Embeds `ClaudeCodeProcessSpawner.generateSessionId`: the template string
``cc-${agentId}-${Date.now()}-${randomSuffix}`` with the clock reading and
the base-36 random suffix as explicit inputs (`Date.now()` is an integer
number of milliseconds, printed in decimal). -/
def generateSessionId (agentId : String) (nowMs : Nat) (randSuffix : String) :
    String :=
  "cc-" ++ agentId ++ "-" ++ Nat.repr nowMs ++ "-" ++ randSuffix

/-- The ids generated by a sequence of spawn calls on one agent, with each
call's clock reading and random suffix made explicit. -/
def spawnSessionIds (agentId : String) (draws : List (Nat × String)) :
    List String :=
  draws.map (fun d => generateSessionId agentId d.1 d.2)

/-! ## ClaudeCodeRuntime construction -/

/-- Interpolation of the optional runtime discriminator into the error
message (JavaScript prints `undefined` for an absent value). -/
def showRuntimeTag : Option String → String
  | none => "undefined"
  | some s => s

/-- Embeds `ClaudeCodeRuntime.validateAgentConfig`: non-empty id, non-empty
workspace, discriminator exactly `claudeCode`, checked in that order. -/
def validateAgentConfig (agent : AgentConfig) : Except String Unit :=
  if agent.id = "" then
    .error "Agent configuration missing required field: id"
  else if agent.workspace = "" then
    .error "Agent configuration missing required field: workspace"
  else if agent.runtime ≠ some "claudeCode" then
    .error ("Invalid runtime type: " ++ showRuntimeTag agent.runtime
      ++ ". Expected \x27claudeCode\x27.")
  else .ok ()

/-- The constructed runtime instance (the fields the claims observe). -/
structure RuntimeInstance where
  agent : AgentConfig
  isInitialized : Bool
deriving DecidableEq

/-- Embeds the `ClaudeCodeRuntime` constructor: validation first (a failure
throws and no instance exists), then the instance is built and flagged
initialized. -/
def ClaudeCodeRuntime.construct (agent : AgentConfig) :
    Except String RuntimeInstance :=
  match validateAgentConfig agent with
  | .error e => .error e
  | .ok _ => .ok { agent := agent, isInitialized := true }

/-! ## Claim theorems -/

/-- Concrete valid agent configuration (used by witnesses). -/
def agentOk : AgentConfig :=
  { id := "wolverine", workspace := "/ws/wolverine",
    runtime := some "claudeCode" }

/-- C7: constructing a Runtime fails with a configuration error exactly when
the agent id is empty, the workspace is empty, or the runtime discriminator
differs from `claudeCode`; when none of these holds, the constructor succeeds
and the instance is initialized. -/
theorem runtime_construct_validates (agent : AgentConfig) :
    ((∃ e, ClaudeCodeRuntime.construct agent = .error e) ↔
      (agent.id = "" ∨ agent.workspace = "" ∨ agent.runtime ≠ some "claudeCode"))
    ∧ (∀ inst, ClaudeCodeRuntime.construct agent = .ok inst →
        inst.isInitialized = true ∧ inst.agent = agent) := by
  by_cases h1 : agent.id = "" <;> by_cases h2 : agent.workspace = "" <;>
    by_cases h3 : agent.runtime = some "claudeCode" <;>
    simp [ClaudeCodeRuntime.construct, validateAgentConfig, h1, h2, h3]

/-- Witness for C7: the theorem applied to a concrete valid configuration. -/
theorem runtime_construct_validates_witness :
    ClaudeCodeRuntime.construct agentOk
      = .ok { agent := agentOk, isInitialized := true } ∧
    ({ agent := agentOk, isInitialized := true } : RuntimeInstance).isInitialized
      = true :=
  ⟨by rfl, ((runtime_construct_validates agentOk).2 _ (by rfl)).1⟩

/-- One push keeps the output buffer within the 100-entry capacity. -/
lemma pushOutputChunk_length_le (buffer : List String) (data : String)
    (h : buffer.length ≤ 100) : (pushOutputChunk buffer data).length ≤ 100 := by
  unfold pushOutputChunk
  dsimp only
  split
  · simp only [List.length_tail, List.length_append, List.length_cons,
      List.length_nil]
    omega
  · next hcond =>
    simp only [List.length_append, List.length_cons, List.length_nil,
      not_lt] at hcond ⊢
    omega

/-- C8: after any sequence of output callbacks the session's output buffer
holds at most 100 entries, and a chunk arriving while the buffer is full
discards the oldest entry and appends the new chunk. -/
theorem outputBuffer_bounded_ring :
    (∀ chunks : List String,
      ((chunks.foldl pushOutputChunk []).length ≤ 100)) ∧
    (∀ buffer data, buffer.length = 100 →
      pushOutputChunk buffer data = buffer.tail ++ [data]) := by
  constructor
  · have main : ∀ (l b : List String), b.length ≤ 100 →
        ((l.foldl pushOutputChunk b).length ≤ 100) := by
      intro l
      induction l with
      | nil => intro b hb; simpa using hb
      | cons x xs ih =>
        intro b hb
        exact ih _ (pushOutputChunk_length_le b x hb)
    intro chunks
    exact main chunks [] (by simp)
  · intro buffer data h
    cases buffer with
    | nil => simp at h
    | cons x xs =>
      unfold pushOutputChunk
      dsimp only
      split
      · simp
      · next hcond =>
        exfalso
        simp only [List.length_append, List.length_cons, List.length_nil,
          not_lt] at hcond
        simp only [List.length_cons] at h
        omega

/-- Witness for C8: a full buffer of 100 entries rotates. -/
theorem outputBuffer_bounded_ring_witness :
    (List.replicate 100 "c").length = 100 ∧
    pushOutputChunk (List.replicate 100 "c") "new"
      = (List.replicate 100 "c").tail ++ ["new"] :=
  ⟨by simp, outputBuffer_bounded_ring.2 _ _ (by simp)⟩

/-- Concrete registered session and spawner state (used by witnesses). -/
def sessA : Session :=
  { sessionId := "s1", agentId := "wolverine", pid := 77, workdir := "/ws",
    task := "do things", startedAt := 5, lastActivity := 5,
    state := .running, outputBuffer := [] }

/-- Spawner state holding exactly `sessA` (used by witnesses). -/
def stA : SpawnerState :=
  { sessions := [("s1", sessA)], events := [], actions := [] }

/-- C4: `write` on an absent session id fails with the NotFound error and
produces no state; `stop` on an absent id returns the state unchanged
(no error, no event); `write` on a registered id performs the pty write and
refreshes the session's last-activity timestamp. -/
theorem write_stop_absent_present (st : SpawnerState) (sid text : String)
    (now : Nat) :
    (lookupSession st.sessions sid = none →
      (ProcessSpawner.write st sid text now
        = .error ("Session " ++ sid ++ " not found")) ∧
      ∀ force, ProcessSpawner.stop st sid force = st) ∧
    (∀ s, lookupSession st.sessions sid = some s →
      ProcessSpawner.write st sid text now
        = .ok { st with
            actions := st.actions ++ [.writeTo sid text],
            sessions := setSession st.sessions sid
              { s with lastActivity := now } }) := by
  constructor
  · intro h
    constructor
    · simp [ProcessSpawner.write, h]
    · intro force
      simp [ProcessSpawner.stop, h]
  · intro s h
    simp [ProcessSpawner.write, h]

/-- Witness for C4: concrete absent and registered ids. -/
theorem write_stop_absent_present_witness :
    lookupSession stA.sessions "nope" = none ∧
    ProcessSpawner.write stA "nope" "x" 9 = .error "Session nope not found" ∧
    ProcessSpawner.stop stA "nope" false = stA ∧
    lookupSession stA.sessions "s1" = some sessA ∧
    ProcessSpawner.write stA "s1" "x" 9
      = .ok { stA with
          actions := stA.actions ++ [.writeTo "s1" "x"],
          sessions := setSession stA.sessions "s1"
            { sessA with lastActivity := 9 } } :=
  ⟨by decide,
   by
     have h := ((write_stop_absent_present stA "nope" "x" 9).1 (by decide)).1
     simpa using h,
   ((write_stop_absent_present stA "nope" "x" 9).1 (by decide)).2 false,
   by decide,
   (write_stop_absent_present stA "s1" "x" 9).2 sessA (by decide)⟩

/-- The five flag literals `buildCommandArgs` can emit. -/
def argFlags : List String :=
  ["--resume", "--continue", "--permission-mode", "--model", "--output-format"]

/-- `a || b` preserves not-a-flag. -/
lemma jsOrS_not_flag (a b : Option String)
    (ha : ∀ s, a = some s → s ∉ argFlags) (hb : ∀ s, b = some s → s ∉ argFlags) :
    ∀ s, jsOrS a b = some s → s ∉ argFlags := by
  intro s h
  unfold jsOrS at h
  split at h
  · exact ha s h
  · exact hb s h

/-- `a || d` with a non-flag default is not a flag. -/
lemma jsOrSD_not_flag (a : Option String)
    (ha : ∀ s, a = some s → s ∉ argFlags) (d : String) (hd : d ∉ argFlags) :
    jsOrSD a d ∉ argFlags := by
  cases a with
  | none => simpa [jsOrSD] using hd
  | some s =>
    by_cases hse : s = ""
    · simpa [jsOrSD, hse] using hd
    · simpa [jsOrSD, hse] using ha s rfl

/-- Unpack not-a-flag into the five inequalities. -/
lemma flag_ne_val {s : String} (h : s ∉ argFlags) :
    s ≠ "--resume" ∧ s ≠ "--continue" ∧ s ≠ "--permission-mode" ∧
    s ≠ "--model" ∧ s ≠ "--output-format" := by
  refine ⟨?_, ?_, ?_, ?_, ?_⟩ <;> intro e <;> exact h (by rw [e]; decide)

/-- C6: in the built argument list, `--resume` and `--continue` are mutually
exclusive with `--resume` winning whenever a (truthy) resume session id is
present; `--permission-mode` always appears, paired with the spawn option's
mode, falling back to the configuration's mode and then to the default; and
`--model` / `--output-format` appear exactly when the respective override
(model: spawn option falling back to configuration; output format: spawn
option) is present.  The hypotheses say only that none of the user-supplied
values is itself one of the five flag literals. -/
theorem buildCommandArgs_flags (agent : AgentConfig) (options : SpawnOptions)
    (hres : ∀ s, options.resumeSessionId = some s → s ∉ argFlags)
    (hpm : ∀ s, options.permissionMode = some s → s ∉ argFlags)
    (hpmc : ∀ s, (agent.claudeCode.getD {}).permissionMode = some s → s ∉ argFlags)
    (hmod : ∀ s, options.model = some s → s ∉ argFlags)
    (hmodc : ∀ s, (agent.claudeCode.getD {}).model = some s → s ∉ argFlags)
    (hof : ∀ s, options.outputFormat = some s → s ∉ argFlags) :
    (¬("--resume" ∈ buildCommandArgs agent options ∧
       "--continue" ∈ buildCommandArgs agent options)) ∧
    (truthyS options.resumeSessionId = true →
      "--resume" ∈ buildCommandArgs agent options ∧
      "--continue" ∉ buildCommandArgs agent options) ∧
    (["--permission-mode",
        jsOrSD (jsOrS options.permissionMode
          (agent.claudeCode.getD {}).permissionMode) "bypassPermissions"]
      <:+: buildCommandArgs agent options) ∧
    ("--model" ∈ buildCommandArgs agent options ↔
      truthyS (jsOrS options.model (agent.claudeCode.getD {}).model) = true) ∧
    ("--output-format" ∈ buildCommandArgs agent options ↔
      truthyS options.outputFormat = true) := by
  obtain ⟨hp1, hp2, hp3, hp4, hp5⟩ :=
    flag_ne_val (jsOrSD_not_flag
      (jsOrS options.permissionMode (agent.claudeCode.getD {}).permissionMode)
      (jsOrS_not_flag _ _ hpm hpmc) "bypassPermissions" (by decide))
  unfold buildCommandArgs
  dsimp only
  by_cases hr : truthyS options.resumeSessionId
  · obtain ⟨rid, hridEq⟩ : ∃ s, options.resumeSessionId = some s := by
      cases hro : options.resumeSessionId with
      | none => rw [hro] at hr; simp [truthyS] at hr
      | some s => exact ⟨s, rfl⟩
    obtain ⟨hr1, hr2, hr3, hr4, hr5⟩ := flag_ne_val (hres rid hridEq)
    have hrT : truthyS (some rid) = true := hridEq ▸ hr
    by_cases hm : truthyS (jsOrS options.model (agent.claudeCode.getD {}).model)
    · obtain ⟨mv, hmvEq⟩ :
          ∃ s, jsOrS options.model (agent.claudeCode.getD {}).model = some s := by
        cases hmo : jsOrS options.model (agent.claudeCode.getD {}).model with
        | none => rw [hmo] at hm; simp [truthyS] at hm
        | some s => exact ⟨s, rfl⟩
      obtain ⟨hm1, hm2, hm3, hm4, hm5⟩ :=
        flag_ne_val (jsOrS_not_flag _ _ hmod hmodc mv hmvEq)
      have hmT : truthyS (some mv) = true := hmvEq ▸ hm
      by_cases ho : truthyS options.outputFormat
      · obtain ⟨fv, hfvEq⟩ : ∃ s, options.outputFormat = some s := by
          cases hoo : options.outputFormat with
          | none => rw [hoo] at ho; simp [truthyS] at ho
          | some s => exact ⟨s, rfl⟩
        obtain ⟨hf1, hf2, hf3, hf4, hf5⟩ := flag_ne_val (hof fv hfvEq)
        have hoT : truthyS (some fv) = true := hfvEq ▸ ho
        refine ⟨?_, ?_, ?_, ?_, ?_⟩
        · rintro ⟨-, hcont⟩
          simp [hr, hrT, hm, ho, hridEq, hmT, hmvEq, hoT, hfvEq, Ne.symm hr2, Ne.symm hp2,
            Ne.symm hm2, Ne.symm hf2] at hcont
        · intro hneed
          refine ⟨by simp [hr, hrT, hridEq], ?_⟩
          intro hcont
          simp [hr, hrT, hm, ho, hridEq, hmT, hmvEq, hoT, hfvEq, Ne.symm hr2, Ne.symm hp2,
            Ne.symm hm2, Ne.symm hf2] at hcont
        · refine ⟨["--resume", rid],
            ["--model", mv] ++ ["--output-format", fv], ?_⟩
          simp [hr, hrT, hm, ho, hridEq, hmT, hmvEq, hoT, hfvEq, List.append_assoc]
        · simp [hr, hrT, hm, ho, hridEq, hmT, hmvEq, hoT, hfvEq]
        · simp [hr, hrT, hm, ho, hridEq, hmT, hmvEq, hoT, hfvEq]
      · refine ⟨?_, ?_, ?_, ?_, ?_⟩
        · rintro ⟨-, hcont⟩
          simp [hr, hrT, hm, ho, hridEq, hmT, hmvEq, Ne.symm hr2, Ne.symm hp2,
            Ne.symm hm2] at hcont
        · intro hneed
          refine ⟨by simp [hr, hrT, hridEq], ?_⟩
          intro hcont
          simp [hr, hrT, hm, ho, hridEq, hmT, hmvEq, Ne.symm hr2, Ne.symm hp2,
            Ne.symm hm2] at hcont
        · refine ⟨["--resume", rid], ["--model", mv], ?_⟩
          simp [hr, hrT, hm, ho, hridEq, hmT, hmvEq, List.append_assoc]
        · simp [hr, hrT, hm, ho, hridEq, hmT, hmvEq]
        · simp [hr, hrT, hm, ho, hridEq, hmT, hmvEq, Ne.symm hr5, Ne.symm hp5,
            Ne.symm hm5]
    · by_cases ho : truthyS options.outputFormat
      · obtain ⟨fv, hfvEq⟩ : ∃ s, options.outputFormat = some s := by
          cases hoo : options.outputFormat with
          | none => rw [hoo] at ho; simp [truthyS] at ho
          | some s => exact ⟨s, rfl⟩
        obtain ⟨hf1, hf2, hf3, hf4, hf5⟩ := flag_ne_val (hof fv hfvEq)
        have hoT : truthyS (some fv) = true := hfvEq ▸ ho
        refine ⟨?_, ?_, ?_, ?_, ?_⟩
        · rintro ⟨-, hcont⟩
          simp [hr, hrT, hm, ho, hridEq, hoT, hfvEq, Ne.symm hr2, Ne.symm hp2,
            Ne.symm hf2] at hcont
        · intro hneed
          refine ⟨by simp [hr, hrT, hridEq], ?_⟩
          intro hcont
          simp [hr, hrT, hm, ho, hridEq, hoT, hfvEq, Ne.symm hr2, Ne.symm hp2,
            Ne.symm hf2] at hcont
        · refine ⟨["--resume", rid], ["--output-format", fv], ?_⟩
          simp [hr, hrT, hm, ho, hridEq, hoT, hfvEq, List.append_assoc]
        · simp [hr, hrT, hm, ho, hridEq, hoT, hfvEq, Ne.symm hr4, Ne.symm hp4,
            Ne.symm hf4]
        · simp [hr, hrT, hm, ho, hridEq, hoT, hfvEq]
      · refine ⟨?_, ?_, ?_, ?_, ?_⟩
        · rintro ⟨-, hcont⟩
          simp [hr, hrT, hm, ho, hridEq, Ne.symm hr2, Ne.symm hp2] at hcont
        · intro hneed
          refine ⟨by simp [hr, hrT, hridEq], ?_⟩
          intro hcont
          simp [hr, hrT, hm, ho, hridEq, Ne.symm hr2, Ne.symm hp2] at hcont
        · refine ⟨["--resume", rid], [], ?_⟩
          simp [hr, hrT, hm, ho, hridEq, List.append_assoc]
        · simp [hr, hrT, hm, ho, hridEq, Ne.symm hr4, Ne.symm hp4]
        · simp [hr, hrT, hm, ho, hridEq, Ne.symm hr5, Ne.symm hp5]
  · by_cases hc : options.continueFlag
    · by_cases hm : truthyS (jsOrS options.model (agent.claudeCode.getD {}).model)
      · obtain ⟨mv, hmvEq⟩ :
            ∃ s, jsOrS options.model (agent.claudeCode.getD {}).model = some s := by
          cases hmo : jsOrS options.model (agent.claudeCode.getD {}).model with
          | none => rw [hmo] at hm; simp [truthyS] at hm
          | some s => exact ⟨s, rfl⟩
        obtain ⟨hm1, hm2, hm3, hm4, hm5⟩ :=
          flag_ne_val (jsOrS_not_flag _ _ hmod hmodc mv hmvEq)
        have hmT : truthyS (some mv) = true := hmvEq ▸ hm
        by_cases ho : truthyS options.outputFormat
        · obtain ⟨fv, hfvEq⟩ : ∃ s, options.outputFormat = some s := by
            cases hoo : options.outputFormat with
            | none => rw [hoo] at ho; simp [truthyS] at ho
            | some s => exact ⟨s, rfl⟩
          obtain ⟨hf1, hf2, hf3, hf4, hf5⟩ := flag_ne_val (hof fv hfvEq)
          have hoT : truthyS (some fv) = true := hfvEq ▸ ho
          refine ⟨?_, ?_, ?_, ?_, ?_⟩
          · rintro ⟨hresume, -⟩
            simp [hr, hc, hm, ho, hmT, hmvEq, hoT, hfvEq, Ne.symm hp1, Ne.symm hm1,
              Ne.symm hf1] at hresume
          · intro hneed
            exact absurd hneed hr
          · refine ⟨["--continue"],
              ["--model", mv] ++ ["--output-format", fv], ?_⟩
            simp [hr, hc, hm, ho, hmT, hmvEq, hoT, hfvEq, List.append_assoc]
          · simp [hr, hc, hm, ho, hmT, hmvEq, hoT, hfvEq]
          · simp [hr, hc, hm, ho, hmT, hmvEq, hoT, hfvEq]
        · refine ⟨?_, ?_, ?_, ?_, ?_⟩
          · rintro ⟨hresume, -⟩
            simp [hr, hc, hm, ho, hmT, hmvEq, Ne.symm hp1, Ne.symm hm1] at hresume
          · intro hneed
            exact absurd hneed hr
          · refine ⟨["--continue"], ["--model", mv], ?_⟩
            simp [hr, hc, hm, ho, hmT, hmvEq, List.append_assoc]
          · simp [hr, hc, hm, ho, hmT, hmvEq]
          · simp [hr, hc, hm, ho, hmT, hmvEq, Ne.symm hp5, Ne.symm hm5]
      · by_cases ho : truthyS options.outputFormat
        · obtain ⟨fv, hfvEq⟩ : ∃ s, options.outputFormat = some s := by
            cases hoo : options.outputFormat with
            | none => rw [hoo] at ho; simp [truthyS] at ho
            | some s => exact ⟨s, rfl⟩
          obtain ⟨hf1, hf2, hf3, hf4, hf5⟩ := flag_ne_val (hof fv hfvEq)
          have hoT : truthyS (some fv) = true := hfvEq ▸ ho
          refine ⟨?_, ?_, ?_, ?_, ?_⟩
          · rintro ⟨hresume, -⟩
            simp [hr, hc, hm, ho, hoT, hfvEq, Ne.symm hp1, Ne.symm hf1] at hresume
          · intro hneed
            exact absurd hneed hr
          · refine ⟨["--continue"], ["--output-format", fv], ?_⟩
            simp [hr, hc, hm, ho, hoT, hfvEq, List.append_assoc]
          · simp [hr, hc, hm, ho, hoT, hfvEq, Ne.symm hp4, Ne.symm hf4]
          · simp [hr, hc, hm, ho, hoT, hfvEq]
        · refine ⟨?_, ?_, ?_, ?_, ?_⟩
          · rintro ⟨hresume, -⟩
            simp [hr, hc, hm, ho, Ne.symm hp1] at hresume
          · intro hneed
            exact absurd hneed hr
          · refine ⟨["--continue"], [], ?_⟩
            simp [hr, hc, hm, ho, List.append_assoc]
          · simp [hr, hc, hm, ho, Ne.symm hp4]
          · simp [hr, hc, hm, ho, Ne.symm hp5]
    · by_cases hm : truthyS (jsOrS options.model (agent.claudeCode.getD {}).model)
      · obtain ⟨mv, hmvEq⟩ :
            ∃ s, jsOrS options.model (agent.claudeCode.getD {}).model = some s := by
          cases hmo : jsOrS options.model (agent.claudeCode.getD {}).model with
          | none => rw [hmo] at hm; simp [truthyS] at hm
          | some s => exact ⟨s, rfl⟩
        obtain ⟨hm1, hm2, hm3, hm4, hm5⟩ :=
          flag_ne_val (jsOrS_not_flag _ _ hmod hmodc mv hmvEq)
        have hmT : truthyS (some mv) = true := hmvEq ▸ hm
        by_cases ho : truthyS options.outputFormat
        · obtain ⟨fv, hfvEq⟩ : ∃ s, options.outputFormat = some s := by
            cases hoo : options.outputFormat with
            | none => rw [hoo] at ho; simp [truthyS] at ho
            | some s => exact ⟨s, rfl⟩
          obtain ⟨hf1, hf2, hf3, hf4, hf5⟩ := flag_ne_val (hof fv hfvEq)
          have hoT : truthyS (some fv) = true := hfvEq ▸ ho
          refine ⟨?_, ?_, ?_, ?_, ?_⟩
          · rintro ⟨hresume, -⟩
            simp [hr, hc, hm, ho, hmT, hmvEq, hoT, hfvEq, Ne.symm hp1, Ne.symm hm1,
              Ne.symm hf1] at hresume
          · intro hneed
            exact absurd hneed hr
          · refine ⟨[], ["--model", mv] ++ ["--output-format", fv], ?_⟩
            simp [hr, hc, hm, ho, hmT, hmvEq, hoT, hfvEq, List.append_assoc]
          · simp [hr, hc, hm, ho, hmT, hmvEq, hoT, hfvEq]
          · simp [hr, hc, hm, ho, hmT, hmvEq, hoT, hfvEq]
        · refine ⟨?_, ?_, ?_, ?_, ?_⟩
          · rintro ⟨hresume, -⟩
            simp [hr, hc, hm, ho, hmT, hmvEq, Ne.symm hp1, Ne.symm hm1] at hresume
          · intro hneed
            exact absurd hneed hr
          · refine ⟨[], ["--model", mv], ?_⟩
            simp [hr, hc, hm, ho, hmT, hmvEq, List.append_assoc]
          · simp [hr, hc, hm, ho, hmT, hmvEq]
          · simp [hr, hc, hm, ho, hmT, hmvEq, Ne.symm hp5, Ne.symm hm5]
      · by_cases ho : truthyS options.outputFormat
        · obtain ⟨fv, hfvEq⟩ : ∃ s, options.outputFormat = some s := by
            cases hoo : options.outputFormat with
            | none => rw [hoo] at ho; simp [truthyS] at ho
            | some s => exact ⟨s, rfl⟩
          obtain ⟨hf1, hf2, hf3, hf4, hf5⟩ := flag_ne_val (hof fv hfvEq)
          have hoT : truthyS (some fv) = true := hfvEq ▸ ho
          refine ⟨?_, ?_, ?_, ?_, ?_⟩
          · rintro ⟨hresume, -⟩
            simp [hr, hc, hm, ho, hoT, hfvEq, Ne.symm hp1, Ne.symm hf1] at hresume
          · intro hneed
            exact absurd hneed hr
          · refine ⟨[], ["--output-format", fv], ?_⟩
            simp [hr, hc, hm, ho, hoT, hfvEq, List.append_assoc]
          · simp [hr, hc, hm, ho, hoT, hfvEq, Ne.symm hp4, Ne.symm hf4]
          · simp [hr, hc, hm, ho, hoT, hfvEq]
        · refine ⟨?_, ?_, ?_, ?_, ?_⟩
          · rintro ⟨hresume, -⟩
            simp [hr, hc, hm, ho, Ne.symm hp1] at hresume
          · intro hneed
            exact absurd hneed hr
          · refine ⟨[], [], ?_⟩
            simp [hr, hc, hm, ho, List.append_assoc]
          · simp [hr, hc, hm, ho, Ne.symm hp4]
          · simp [hr, hc, hm, ho, Ne.symm hp5]

/-- Concrete spawn options (used by the C6 witness). -/
def optsW : SpawnOptions :=
  { task := "t", resumeSessionId := some "cc-old-1-x",
    continueFlag := true, permissionMode := none,
    model := some "sonnet", outputFormat := none }

/-- Witness for C6: with both a resume id and the continue flag set,
`--resume` wins and `--continue` is absent; the permission mode falls back
to the default; `--model` is present and `--output-format` absent. -/
theorem buildCommandArgs_flags_witness :
    buildCommandArgs agentOk optsW
      = ["--resume", "cc-old-1-x", "--permission-mode", "bypassPermissions",
         "--model", "sonnet"] ∧
    "--resume" ∈ buildCommandArgs agentOk optsW ∧
    "--continue" ∉ buildCommandArgs agentOk optsW ∧
    ("--model" ∈ buildCommandArgs agentOk optsW ↔
      truthyS (jsOrS optsW.model ((agentOk.claudeCode.getD {}).model)) = true) :=
  ⟨by decide,
   ((buildCommandArgs_flags agentOk optsW
      (by intro s h; simp [optsW] at h; rw [← h]; decide)
      (by intro s h; simp [optsW] at h)
      (by intro s h; simp [agentOk] at h)
      (by intro s h; simp [optsW] at h; rw [← h]; decide)
      (by intro s h; simp [agentOk] at h)
      (by intro s h; simp [optsW] at h)).2.1 (by decide)).1,
   ((buildCommandArgs_flags agentOk optsW
      (by intro s h; simp [optsW] at h; rw [← h]; decide)
      (by intro s h; simp [optsW] at h)
      (by intro s h; simp [agentOk] at h)
      (by intro s h; simp [optsW] at h; rw [← h]; decide)
      (by intro s h; simp [agentOk] at h)
      (by intro s h; simp [optsW] at h)).2.1 (by decide)).2,
   (buildCommandArgs_flags agentOk optsW
      (by intro s h; simp [optsW] at h; rw [← h]; decide)
      (by intro s h; simp [optsW] at h)
      (by intro s h; simp [agentOk] at h)
      (by intro s h; simp [optsW] at h; rw [← h]; decide)
      (by intro s h; simp [agentOk] at h)
      (by intro s h; simp [optsW] at h)).2.2.2.1⟩

/-- Counterexample for C5: the chunk `null` decodes (to the JSON value
`null`) and carries neither a `completion` nor an `error` tag, yet the parser
classifies it `raw` — the `data.type` access throws inside the `try` — not
`status` as the claim says of every other decoded record. -/
theorem jsonParser_null_counterexample :
    jsonParse ("null".data) = some Json.null ∧
    getField Json.null ("type".data) ≠ some (.str ("completion".data)) ∧
    getField Json.null ("type".data) ≠ some (.str ("error".data)) ∧
    (JsonOutputParser.parse ("null".data)).type ≠ .status ∧
    JsonOutputParser.parse ("null".data)
      = { type := .raw, content := .str ("null".data) } := by
  decide

/-- C5 (amended): the structured parser is total (the embedding of a method
that never throws): a chunk that does not decode yields `raw` with the
content unchanged; a decoded record tagged `completion` yields `result` with
`isComplete`; a record tagged `error` yields `error` carrying the record's
`message`; any other decoded value yields `status` — except the decoded JSON
`null`, whose tag access itself throws inside the `try` and so degrades to
`raw` exactly like a decode failure. -/
theorem jsonOutputParser_total (s : List Char) :
    (jsonParse s = none →
      JsonOutputParser.parse s = { type := .raw, content := .str s }) ∧
    (jsonParse s = some Json.null →
      JsonOutputParser.parse s = { type := .raw, content := .str s }) ∧
    (∀ v, jsonParse s = some v →
      (getField v ("type".data) = some (.str ("completion".data)) →
        (JsonOutputParser.parse s).type = .result ∧
        (JsonOutputParser.parse s).isComplete = true) ∧
      (getField v ("type".data) = some (.str ("error".data)) →
        (JsonOutputParser.parse s).type = .error ∧
        (JsonOutputParser.parse s).error = getField v ("message".data)) ∧
      (v ≠ Json.null →
        getField v ("type".data) ≠ some (.str ("completion".data)) →
        getField v ("type".data) ≠ some (.str ("error".data)) →
        (JsonOutputParser.parse s).type = .status)) := by
  refine ⟨?_, ?_, ?_⟩
  · intro h
    unfold JsonOutputParser.parse
    rw [h]
  · intro h
    unfold JsonOutputParser.parse
    rw [h]
    dsimp only
    rw [if_pos rfl]
  · intro v h
    refine ⟨?_, ?_, ?_⟩
    · intro ht
      have hv : v ≠ Json.null := by
        intro e
        rw [e] at ht
        exact absurd ht (by decide)
      unfold JsonOutputParser.parse
      rw [h]
      dsimp only
      rw [if_neg hv]
      simp only [ht, if_pos rfl]
      exact ⟨rfl, rfl⟩
    · intro ht
      have hv : v ≠ Json.null := by
        intro e
        rw [e] at ht
        exact absurd ht (by decide)
      have hne : some (Json.str ("error".data))
          ≠ some (Json.str ("completion".data)) := by decide
      unfold JsonOutputParser.parse
      rw [h]
      dsimp only
      rw [if_neg hv, ht, if_neg hne, if_pos rfl]
      exact ⟨rfl, rfl⟩
    · intro hv ht1 ht2
      unfold JsonOutputParser.parse
      rw [h]
      dsimp only
      rw [if_neg hv, if_neg ht1, if_neg ht2]

/-- A decoded error record (used by the C5 witness). -/
def jsonErrorVal : Json :=
  .obj (.cons ("type".data) (.str ("error".data))
    (.cons ("message".data) (.str ("boom".data)) .nil))

/-- Witness for C5 (amended): concrete undecodable, decoded-null,
error-tagged, completion-tagged and otherwise-tagged chunks. -/
theorem jsonOutputParser_total_witness :
    JsonOutputParser.parse ("not json".data)
      = { type := .raw, content := .str ("not json".data) } ∧
    JsonOutputParser.parse ("null".data)
      = { type := .raw, content := .str ("null".data) } ∧
    (JsonOutputParser.parse
        ("\x7b\"type\":\"error\",\"message\":\"boom\"\x7d".data)).type
      = .error ∧
    (JsonOutputParser.parse
        ("\x7b\"type\":\"error\",\"message\":\"boom\"\x7d".data)).error
      = some (.str ("boom".data)) ∧
    (JsonOutputParser.parse
        ("\x7b\"type\":\"completion\",\"result\":\"ok\"\x7d".data)).type
      = .result ∧
    (JsonOutputParser.parse
        ("\x7b\"type\":\"completion\",\"result\":\"ok\"\x7d".data)).isComplete
      = true ∧
    (JsonOutputParser.parse ("\x7b\"type\":\"progress\"\x7d".data)).type
      = .status := by
  have hraw := (jsonOutputParser_total ("not json".data)).1 (by decide)
  have hnull := (jsonOutputParser_total ("null".data)).2.1 (by decide)
  have herr := ((jsonOutputParser_total
      ("\x7b\"type\":\"error\",\"message\":\"boom\"\x7d".data)).2.2
      jsonErrorVal (by decide)).2.1 (by decide)
  have hcomp := ((jsonOutputParser_total
      ("\x7b\"type\":\"completion\",\"result\":\"ok\"\x7d".data)).2.2
      (.obj (.cons ("type".data) (.str ("completion".data))
        (.cons ("result".data) (.str ("ok".data)) .nil))) (by decide)).1
      (by decide)
  have hstat := ((jsonOutputParser_total
      ("\x7b\"type\":\"progress\"\x7d".data)).2.2
      (.obj (.cons ("type".data) (.str ("progress".data)) .nil))
      (by decide)).2.2 (by decide) (by decide) (by decide)
  exact ⟨hraw, hnull, herr.1, herr.2.trans (by decide), hcomp.1, hcomp.2, hstat⟩

/-- Counterexample for C2: a chunk whose buffer contains `Error: disk full`
and no completion marker, yet whose extracted message is taken from the
earlier `Error:` occurrence, not `disk full`. -/
theorem heuristic_extract_counterexample :
    includesSub ("Error: a\nError: disk full".data) ("Error: disk full".data)
      = true ∧
    hasCompletionMarker ("Error: a\nError: disk full".data) = false ∧
    (DefaultOutputParser.parse [] ("Error: a\nError: disk full".data)).1.type
      = .error ∧
    (DefaultOutputParser.parse [] ("Error: a\nError: disk full".data)).1.error
      = some (.str ("a".data)) ∧
    (DefaultOutputParser.parse [] ("Error: a\nError: disk full".data)).1.error
      ≠ some (.str ("disk full".data)) := by
  decide

/-- C2 (amended): on a fresh parser, any chunking whose concatenation is
exactly `Error: disk full` finally classifies as `error` with message
`disk full`; any chunking whose concatenation is exactly `Task completed`
finally classifies as `result` with `isComplete`; and classification
precedence over the accumulated buffer is fixed: completion markers, then
error markers (message extracted from the first `Error:` occurrence), then
prompt phrasing, otherwise `raw` with the chunk as content. -/
theorem heuristic_parser_amended :
    (∀ b c : List Char, b ++ c = ("Error: disk full".data) →
      (DefaultOutputParser.parse b c).1.type = .error ∧
      (DefaultOutputParser.parse b c).1.error
        = some (.str ("disk full".data))) ∧
    (∀ b c : List Char, b ++ c = ("Task completed".data) →
      (DefaultOutputParser.parse b c).1.type = .result ∧
      (DefaultOutputParser.parse b c).1.isComplete = true) ∧
    (∀ b c : List Char,
      (hasCompletionMarker (b ++ c) = true →
        (DefaultOutputParser.parse b c).1.type = .result ∧
        (DefaultOutputParser.parse b c).1.isComplete = true) ∧
      (hasCompletionMarker (b ++ c) = false →
        hasErrorMarker (b ++ c) = true →
        (DefaultOutputParser.parse b c).1.type = .error ∧
        (DefaultOutputParser.parse b c).1.error
          = some (.str (extractError (b ++ c)))) ∧
      (hasCompletionMarker (b ++ c) = false →
        hasErrorMarker (b ++ c) = false →
        hasPromptShape (b ++ c) = true →
        (DefaultOutputParser.parse b c).1.type = .prompt) ∧
      (hasCompletionMarker (b ++ c) = false →
        hasErrorMarker (b ++ c) = false →
        hasPromptShape (b ++ c) = false →
        (DefaultOutputParser.parse b c).1
          = { type := .raw, content := .str c })) := by
  refine ⟨?_, ?_, ?_⟩
  · intro b c h
    unfold DefaultOutputParser.parse
    dsimp only
    rw [h]
    exact ⟨rfl, rfl⟩
  · intro b c h
    unfold DefaultOutputParser.parse
    dsimp only
    rw [h]
    exact ⟨rfl, rfl⟩
  · intro b c
    refine ⟨?_, ?_, ?_, ?_⟩
    · intro h1
      unfold DefaultOutputParser.parse
      dsimp only
      rw [h1]
      exact ⟨rfl, rfl⟩
    · intro h1 h2
      unfold DefaultOutputParser.parse
      dsimp only
      rw [h1, h2]
      exact ⟨rfl, rfl⟩
    · intro h1 h2 h3
      unfold DefaultOutputParser.parse
      dsimp only
      rw [h1, h2, h3]
      rfl
    · intro h1 h2 h3
      unfold DefaultOutputParser.parse
      dsimp only
      rw [h1, h2, h3]
      rfl

/-- Witness for C2 (amended): a two-chunk split of `Error: disk full` and the
whole-buffer completion case. -/
theorem heuristic_parser_amended_witness :
    ("Error: dis".data ++ "k full".data = ("Error: disk full".data)) ∧
    (DefaultOutputParser.parse ("Error: dis".data) ("k full".data)).1.type
      = .error ∧
    (DefaultOutputParser.parse ("Error: dis".data) ("k full".data)).1.error
      = some (.str ("disk full".data)) ∧
    (DefaultOutputParser.parse [] ("Task completed".data)).1.type = .result ∧
    (DefaultOutputParser.parse [] ("Task completed".data)).1.isComplete
      = true := by
  have h1 := heuristic_parser_amended.1 ("Error: dis".data) ("k full".data)
    (by decide)
  have h2 := heuristic_parser_amended.2.1 [] ("Task completed".data) (by decide)
  exact ⟨by decide, h1.1, h1.2, h2.1, h2.2⟩

/-- A substring of the buffer is still a substring after appending a chunk. -/
lemma includesSub_append_right (buf c m : List Char)
    (h : includesSub buf m = true) : includesSub (buf ++ c) m = true := by
  simp only [includesSub, decide_eq_true_eq] at h ⊢
  exact h.trans ⟨[], c, by simp⟩

/-- A completion marker in the shared buffer survives appending. -/
lemma hasCompletionMarker_append (buf c : List Char)
    (h : hasCompletionMarker buf = true) :
    hasCompletionMarker (buf ++ c) = true := by
  simp only [hasCompletionMarker, Bool.or_eq_true] at h ⊢
  rcases h with h | h
  · exact Or.inl (includesSub_append_right buf c _ h)
  · exact Or.inr (includesSub_append_right buf c _ h)

/-- Once the shared buffer holds a completion marker, every parse returns the
completed result, whatever the chunk. -/
lemma parse_of_completionMarker (buf c : List Char)
    (h : hasCompletionMarker buf = true) :
    DefaultOutputParser.parse buf c
      = ({ type := .result, content := .str (buf ++ c),
           isComplete := true }, buf ++ c) := by
  unfold DefaultOutputParser.parse
  dsimp only
  rw [hasCompletionMarker_append buf c h]
  rfl

/-- The parse buffer is only ever appended to. -/
lemma parse_snd (b c : List Char) :
    (DefaultOutputParser.parse b c).2 = b ++ c := by
  unfold DefaultOutputParser.parse
  dsimp only
  split_ifs <;> rfl

/-- C10: the heuristic classification state is the one buffer shared by all
sessions of a communicator and is never reset by parsing (the final buffer is
the initial buffer followed by every session's chunks in dispatch order); and
once the accumulated buffer contains a completion marker, every subsequently
dispatched chunk — from any session — is classified `result` with
`isComplete`, regardless of its content. -/
theorem sharedParserBuffer_latch (st : CommState)
    (evs : List (String × List Char)) :
    ((processOutputs st evs).buffer
      = st.buffer ++ (evs.map Prod.snd).flatten) ∧
    (hasCompletionMarker st.buffer = true →
      hasCompletionMarker (processOutputs st evs).buffer = true ∧
      ∃ outs, (processOutputs st evs).emitted = st.emitted ++ outs ∧
        outs.length = evs.length ∧
        ∀ p ∈ outs, p.2.type = .result ∧ p.2.isComplete = true) := by
  induction evs generalizing st with
  | nil =>
    refine ⟨by simp [processOutputs], fun h => ⟨by simpa [processOutputs] using h,
      [], by simp [processOutputs], rfl, by simp⟩⟩
  | cons e evs ih =>
    constructor
    · have hb : (handleOutputEvent st e).buffer = st.buffer ++ e.2 := by
        simp [handleOutputEvent, parse_snd]
      have := (ih (handleOutputEvent st e)).1
      simp only [processOutputs, List.foldl_cons] at this ⊢
      rw [this, hb]
      simp [List.append_assoc]
    · intro h
      have hb : (handleOutputEvent st e).buffer = st.buffer ++ e.2 := by
        simp [handleOutputEvent, parse_snd]
      have hlatch : hasCompletionMarker (handleOutputEvent st e).buffer = true := by
        rw [hb]; exact hasCompletionMarker_append _ _ h
      have hem : (handleOutputEvent st e).emitted
          = st.emitted ++ [(e.1, (DefaultOutputParser.parse st.buffer e.2).1)] := by
        simp [handleOutputEvent]
      have hout : (DefaultOutputParser.parse st.buffer e.2).1.type = .result ∧
          (DefaultOutputParser.parse st.buffer e.2).1.isComplete = true := by
        rw [parse_of_completionMarker st.buffer e.2 h]
        exact ⟨rfl, rfl⟩
      obtain ⟨hm, outs, hemit, hlen, hall⟩ := (ih (handleOutputEvent st e)).2 hlatch
      refine ⟨by simpa [processOutputs] using hm,
        (e.1, (DefaultOutputParser.parse st.buffer e.2).1) :: outs, ?_, ?_, ?_⟩
      · simp only [processOutputs, List.foldl_cons] at hemit ⊢
        rw [hemit, hem]
        simp
      · simpa using hlen
      · intro p hp
        rcases List.mem_cons.mp hp with hp | hp
        · subst hp; exact hout
        · exact hall p hp

/-- Witness for C10: session A's `Task completed` chunk latches the shared
buffer, so session B's unrelated `hello` chunk is classified complete. -/
theorem sharedParserBuffer_latch_witness :
    hasCompletionMarker
      (processOutputs ⟨[], []⟩ [("A", ("Task completed".data))]).buffer
      = true ∧
    (∃ outs,
      (processOutputs (processOutputs ⟨[], []⟩ [("A", ("Task completed".data))])
          [("B", ("hello".data))]).emitted
        = (processOutputs ⟨[], []⟩ [("A", ("Task completed".data))]).emitted
            ++ outs ∧
      outs.length = 1 ∧
      ∀ p ∈ outs, p.2.type = .result ∧ p.2.isComplete = true) := by
  refine ⟨by decide, ?_⟩
  have h := (sharedParserBuffer_latch
    (processOutputs ⟨[], []⟩ [("A", ("Task completed".data))])
    [("B", ("hello".data))]).2 (by decide)
  exact h.2

/-- A lookup misses exactly when no entry carries the key. -/
lemma lookupSession_eq_none_iff (l : List (String × Session)) (sid : String) :
    lookupSession l sid = none ↔ ∀ p ∈ l, p.1 ≠ sid := by
  induction l with
  | nil => simp [lookupSession]
  | cons hd tl ih =>
    obtain ⟨k, s⟩ := hd
    by_cases h : k = sid
    · simp [lookupSession, h]
    · simp [lookupSession, h, ih]

/-- Deleting a key makes its lookup miss. -/
lemma lookupSession_remove (l : List (String × Session)) (sid : String) :
    lookupSession (removeSession l sid) sid = none := by
  rw [lookupSession_eq_none_iff]
  intro p hp
  have := List.of_mem_filter hp
  simpa using this

/-- Deleting an absent key is the identity. -/
lemma removeSession_of_none (l : List (String × Session)) (sid : String)
    (h : lookupSession l sid = none) : removeSession l sid = l := by
  rw [lookupSession_eq_none_iff] at h
  unfold removeSession
  apply List.filter_eq_self.mpr
  intro p hp
  simpa using h p hp

/-- Counterexample for C3: a registered session, stopped non-forcefully while
the process exits naturally during the grace window, gets its `stopped` event
emitted twice (once by the exit callback, once by the resuming stop). -/
theorem stop_exit_double_stopped_counterexample :
    lookupSession stA.sessions "s1" = some sessA ∧
    countStopped (stopGracefulExitDuringGrace stA "s1" 0).events "s1" = 2 ∧
    (stopGracefulExitDuringGrace stA "s1" 0).sessions = [] := by
  decide

/-- C3 (amended): whichever removal path runs second raises no error and
leaves the registry unchanged — `stop` after removal is a complete no-op,
and the exit callback after removal touches no registry entry — but the
`stopped` event is not deduplicated: the exit callback always emits one, so
when the process exits during the grace window of a non-forced stop the
session's `stopped` event is emitted exactly twice, once per path. -/
theorem stop_exit_second_path_amended (st : SpawnerState) (sid : String)
    (code : Nat) :
    (lookupSession st.sessions sid = none →
      (∀ force, ProcessSpawner.stop st sid force = st) ∧
      (ProcessSpawner.onExit st sid code).sessions = st.sessions ∧
      (ProcessSpawner.onExit st sid code).events
        = st.events ++ [.stoppedEv sid (some code)]) ∧
    (lookupSession st.sessions sid ≠ none →
      countStopped (stopGracefulExitDuringGrace st sid code).events sid
        = countStopped st.events sid + 2 ∧
      lookupSession (stopGracefulExitDuringGrace st sid code).sessions sid
        = none) := by
  constructor
  · intro h
    refine ⟨?_, ?_, rfl⟩
    · intro force
      simp [ProcessSpawner.stop, h]
    · simp [ProcessSpawner.onExit, removeSession_of_none st.sessions sid h]
  · intro _
    constructor
    · have hmiss : lookupSession
          (ProcessSpawner.onExit (stopBeginGraceful st sid) sid code).sessions sid
          = none := by
        simp [ProcessSpawner.onExit, lookupSession_remove]
      unfold stopGracefulExitDuringGrace stopResumeAfterGrace
      rw [hmiss]
      simp only [Option.isSome_none, Bool.false_eq_true, if_false]
      unfold stopFinalize ProcessSpawner.onExit stopBeginGraceful countStopped
      simp [List.countP_append, List.countP_cons]
    · have hmiss : lookupSession
          (ProcessSpawner.onExit (stopBeginGraceful st sid) sid code).sessions sid
          = none := by
        simp [ProcessSpawner.onExit, lookupSession_remove]
      unfold stopGracefulExitDuringGrace stopResumeAfterGrace
      rw [hmiss]
      simp only [Option.isSome_none, Bool.false_eq_true, if_false]
      unfold stopFinalize
      simp [lookupSession_remove]

/-- Witness for C3 (amended): the absent-id branch on an absent key and the
grace-window interleaving on the registered session. -/
theorem stop_exit_second_path_amended_witness :
    ProcessSpawner.stop stA "nope" false = stA ∧
    (ProcessSpawner.onExit stA "nope" 3).sessions = stA.sessions ∧
    countStopped (stopGracefulExitDuringGrace stA "s1" 0).events "s1"
      = countStopped stA.events "s1" + 2 :=
  ⟨((stop_exit_second_path_amended stA "nope" 3).1 (by decide)).1 false,
   ((stop_exit_second_path_amended stA "nope" 3).1 (by decide)).2.1,
   ((stop_exit_second_path_amended stA "s1" 0).2 (by decide)).1⟩

/-- After deregistration the session has no handler. -/
lemma not_mem_removeHandler (hs : List String) (sid : String) :
    sid ∉ removeHandler hs sid := by
  intro h
  have := List.of_mem_filter h
  simp at this

/-- C1: `waitForCompletion` settles exactly once — on the first terminal
output delivered for the session before the timer (resolving it unless its
kind is `error`, in which case it rejects with the parsed error message), or
by a timeout rejection at exactly the budget when no terminal output arrives
before it — and in every outcome the session's output handler ends up
deregistered. -/
theorem waitForCompletion_protocol (sessionId : String) (timeoutMs : Nat)
    (hs : List String) (events : List (Nat × ParsedOutput)) :
    sessionId ∉ (waitForCompletion sessionId timeoutMs hs events).handlers ∧
    (∀ pre t o post, events = pre ++ (t, o) :: post →
      (∀ x ∈ pre, x.1 < timeoutMs ∧ isTerminalOutput x.2 = false) →
      t < timeoutMs → isTerminalOutput o = true →
      (waitForCompletion sessionId timeoutMs hs events).outcome
        = (if o.type = .error then .rejectedError (errMessage o)
           else .resolved o) ∧
      (waitForCompletion sessionId timeoutMs hs events).settledAt = t) ∧
    ((∀ x ∈ events, x.1 < timeoutMs → isTerminalOutput x.2 = false) →
      (waitForCompletion sessionId timeoutMs hs events).outcome
        = .rejectedTimeout (timeoutMessage sessionId) ∧
      (waitForCompletion sessionId timeoutMs hs events).settledAt
        = timeoutMs) := by
  refine ⟨?_, ?_, ?_⟩
  · induction events with
    | nil => exact not_mem_removeHandler _ _
    | cons e rest ih =>
      obtain ⟨t, o⟩ := e
      unfold waitForCompletion
      split_ifs
      · exact not_mem_removeHandler _ _
      · exact not_mem_removeHandler _ _
      · exact not_mem_removeHandler _ _
      · exact ih
  · intro pre t o post hev hpre ht hterm
    subst hev
    induction pre with
    | nil =>
      rw [List.nil_append]
      unfold waitForCompletion
      rw [if_neg (Nat.not_le.mpr ht), if_pos hterm]
      by_cases he : o.type = .error
      · simp [he]
      · simp [he]
    | cons x pre ih =>
      obtain ⟨xt, xo⟩ := x
      obtain ⟨hx1, hx2⟩ := hpre (xt, xo) (List.mem_cons_self _ _)
      have hback : ∀ y ∈ pre, y.1 < timeoutMs ∧ isTerminalOutput y.2 = false :=
        fun y hy => hpre y (List.mem_cons_of_mem _ hy)
      rw [List.cons_append]
      unfold waitForCompletion
      rw [if_neg (Nat.not_le.mpr hx1)]
      rw [if_neg (by simp [hx2])]
      exact ih hback
  · intro h
    induction events with
    | nil => exact ⟨rfl, rfl⟩
    | cons e rest ih =>
      obtain ⟨t, o⟩ := e
      by_cases hto : timeoutMs ≤ t
      · unfold waitForCompletion
        rw [if_pos hto]
        exact ⟨rfl, rfl⟩
      · have hterm : isTerminalOutput o = false :=
          h (t, o) (List.mem_cons_self _ _) (Nat.not_le.mp hto)
        unfold waitForCompletion
        rw [if_neg hto, if_neg (by simp [hterm])]
        exact ih (fun x hx hxt => h x (List.mem_cons_of_mem _ hx) hxt)

/-- A non-terminal output (used by the C1 witness). -/
def povRaw : ParsedOutput := { type := .raw, content := .str [] }

/-- A terminal completed output (used by the C1 witness). -/
def povDone : ParsedOutput :=
  { type := .result, content := .str [], isComplete := true }

/-- A terminal error output (used by the C1 witness). -/
def povErr : ParsedOutput :=
  { type := .error, content := .str [], error := some (.str ("oops".data)) }

/-- Witness for C1: a 50 ms budget resolving on the terminal output at 20 ms
after skipping a non-terminal one; rejecting with the error message on an
error output; and timing out at exactly 50 ms when nothing terminal arrives. -/
theorem waitForCompletion_protocol_witness :
    (waitForCompletion "s" 50 [] [(10, povRaw), (20, povDone)]).outcome
      = .resolved povDone ∧
    (waitForCompletion "s" 50 [] [(10, povRaw), (20, povDone)]).settledAt
      = 20 ∧
    (waitForCompletion "s" 50 [] [(15, povErr)]).outcome
      = .rejectedError (.str ("oops".data)) ∧
    (waitForCompletion "s" 50 [] [(10, povRaw)]).outcome
      = .rejectedTimeout (timeoutMessage "s") ∧
    (waitForCompletion "s" 50 [] [(10, povRaw)]).settledAt = 50 ∧
    "s" ∉ (waitForCompletion "s" 50 [] [(10, povRaw), (20, povDone)]).handlers := by
  have h1 := (waitForCompletion_protocol "s" 50 [] [(10, povRaw), (20, povDone)]).2.1
    [(10, povRaw)] 20 povDone [] rfl (by decide) (by decide) (by decide)
  have h2 := (waitForCompletion_protocol "s" 50 [] [(15, povErr)]).2.1
    [] 15 povErr [] rfl (by decide) (by decide) (by decide)
  have h3 := (waitForCompletion_protocol "s" 50 [] [(10, povRaw)]).2.2 (by decide)
  exact ⟨h1.1.trans (by decide), h1.2, h2.1.trans (by decide), h3.1, h3.2,
    (waitForCompletion_protocol "s" 50 [] [(10, povRaw), (20, povDone)]).1⟩

/-! ## Session id generation (C9): decimal digits of `Nat.repr` -/

/-- The decimal digit list of `n` (what `Nat.repr` wraps into a string). -/
def repDigits (n : Nat) : List Char := Nat.toDigitsCore 10 (n + 1) n []

/-- `toDigitsCore` with enough fuel appends the digits of `n` to the
accumulator. -/
lemma toDigitsCore_append : ∀ (fuel n : Nat) (ds : List Char), n < fuel →
    Nat.toDigitsCore 10 fuel n ds = repDigits n ++ ds := by
  intro fuel
  induction fuel using Nat.strong_induction_on with
  | _ fuel ih =>
    intro n ds h
    cases fuel with
    | zero => omega
    | succ f =>
      simp only [Nat.toDigitsCore]
      by_cases hdiv : n / 10 = 0
      · rw [if_pos hdiv]
        unfold repDigits
        simp only [Nat.toDigitsCore]
        rw [if_pos hdiv]
        rfl
      · rw [if_neg hdiv]
        have hpos : 0 < n := by
          rcases Nat.eq_zero_or_pos n with rfl | hp
          · simp at hdiv
          · exact hp
        have h10 : n / 10 < n := Nat.div_lt_self hpos (by omega)
        rw [ih f (by omega) (n / 10) (Nat.digitChar (n % 10) :: ds) (by omega)]
        have hrep : repDigits n
            = repDigits (n / 10) ++ [Nat.digitChar (n % 10)] := by
          unfold repDigits
          simp only [Nat.toDigitsCore]
          rw [if_neg hdiv]
          exact ih n (by omega) (n / 10) [Nat.digitChar (n % 10)] h10
        rw [hrep]
        simp

/-- One unfolding of the digit list. -/
lemma repDigits_step (n : Nat) :
    repDigits n = (if n / 10 = 0 then [] else repDigits (n / 10))
      ++ [Nat.digitChar (n % 10)] := by
  by_cases hdiv : n / 10 = 0
  · rw [if_pos hdiv]
    unfold repDigits
    simp only [Nat.toDigitsCore]
    rw [if_pos hdiv]
    rfl
  · rw [if_neg hdiv]
    have hpos : 0 < n := by
      rcases Nat.eq_zero_or_pos n with rfl | hp
      · simp at hdiv
      · exact hp
    unfold repDigits
    simp only [Nat.toDigitsCore]
    rw [if_neg hdiv]
    exact toDigitsCore_append n (n / 10) [Nat.digitChar (n % 10)]
      (Nat.div_lt_self hpos (by omega))

/-- Numeric value of a digit character. -/
def digitVal (c : Char) : Nat := c.toNat - 48

/-- Numeric value of a digit list (most significant first). -/
def digitsVal (l : List Char) : Nat :=
  l.foldl (fun a c => a * 10 + digitVal c) 0

/-- `digitChar` of a decimal digit round-trips through `digitVal`. -/
lemma digitVal_digitChar (m : Nat) (h : m < 10) :
    digitVal (Nat.digitChar m) = m := by
  interval_cases m <;> decide

/-- Value of a digit list with one more digit appended. -/
lemma digitsVal_append_singleton (l : List Char) (c : Char) :
    digitsVal (l ++ [c]) = digitsVal l * 10 + digitVal c := by
  unfold digitsVal
  rw [List.foldl_append]
  rfl

/-- The digits of `n` evaluate back to `n`. -/
lemma digitsVal_repDigits : ∀ n, digitsVal (repDigits n) = n := by
  intro n
  induction n using Nat.strong_induction_on with
  | _ n ih =>
    rw [repDigits_step]
    by_cases hdiv : n / 10 = 0
    · have hn : n < 10 := by
        by_contra hge
        push_neg at hge
        have : 0 < n / 10 := Nat.div_pos hge (by omega)
        omega
      rw [if_pos hdiv]
      simp only [List.nil_append]
      have : digitsVal [Nat.digitChar (n % 10)]
          = digitVal (Nat.digitChar (n % 10)) := by
        simp [digitsVal]
      rw [this, digitVal_digitChar _ (Nat.mod_lt _ (by omega)),
        Nat.mod_eq_of_lt hn]
    · rw [if_neg hdiv]
      have hpos : 0 < n := by
        rcases Nat.eq_zero_or_pos n with rfl | hp
        · simp at hdiv
        · exact hp
      rw [digitsVal_append_singleton, ih (n / 10) (Nat.div_lt_self hpos (by omega)),
        digitVal_digitChar _ (Nat.mod_lt _ (by omega))]
      omega

/-- Distinct numbers have distinct digit lists. -/
lemma repDigits_inj {a b : Nat} (h : repDigits a = repDigits b) : a = b := by
  have := congrArg digitsVal h
  rwa [digitsVal_repDigits, digitsVal_repDigits] at this

/-- `Nat.repr` is the digit list, as a string. -/
lemma repr_data (n : Nat) : (Nat.repr n).data = repDigits n := rfl

/-- No digit character is a dash. -/
lemma digitChar_ne_dash (m : Nat) (hm : m < 10) : Nat.digitChar m ≠ '-' := by
  interval_cases m <;> decide

/-- The digit list of `n` contains no dash. -/
lemma repDigits_no_dash : ∀ n, ∀ c ∈ repDigits n, c ≠ '-' := by
  intro n
  induction n using Nat.strong_induction_on with
  | _ n ih =>
    intro c hc
    rw [repDigits_step] at hc
    rcases List.mem_append.mp hc with hc | hc
    · by_cases hdiv : n / 10 = 0
      · rw [if_pos hdiv] at hc
        simp at hc
      · rw [if_neg hdiv] at hc
        have hpos : 0 < n := by
          rcases Nat.eq_zero_or_pos n with rfl | hp
          · simp at hdiv
          · exact hp
        exact ih (n / 10) (Nat.div_lt_self hpos (by omega)) c hc
    · rcases List.mem_singleton.mp hc with rfl
      exact digitChar_ne_dash _ (Nat.mod_lt _ (by omega))

/-- Splitting two equal lists at the first dash of their dash-free prefixes. -/
lemma append_dash_split : ∀ (a b r s : List Char),
    (∀ c ∈ a, c ≠ '-') → (∀ c ∈ b, c ≠ '-') →
    a ++ '-' :: r = b ++ '-' :: s → a = b ∧ r = s := by
  intro a
  induction a with
  | nil =>
    intro b r s _ hb h
    cases b with
    | nil =>
      simp only [List.nil_append, List.cons.injEq] at h
      exact ⟨rfl, h.2⟩
    | cons x xs =>
      simp only [List.nil_append, List.cons_append, List.cons.injEq] at h
      exact absurd h.1.symm (hb x (by simp))
  | cons y ys ih =>
    intro b r s ha hb h
    cases b with
    | nil =>
      simp only [List.cons_append, List.nil_append, List.cons.injEq] at h
      exact absurd h.1 (ha y (by simp))
    | cons x xs =>
      simp only [List.cons_append, List.cons.injEq] at h
      obtain ⟨h1, h2⟩ := h
      obtain ⟨hab, hrs⟩ := ih xs r s
        (fun c hc => ha c (List.mem_cons_of_mem _ hc))
        (fun c hc => hb c (List.mem_cons_of_mem _ hc)) h2
      exact ⟨by rw [h1, hab], hrs⟩

/-- For a fixed agent, a generated session id determines the clock reading
and the random suffix. -/
lemma generateSessionId_inj (agentId : String) {t1 t2 : Nat} {r1 r2 : String}
    (h : generateSessionId agentId t1 r1 = generateSessionId agentId t2 r2) :
    t1 = t2 ∧ r1 = r2 := by
  unfold generateSessionId at h
  have hd := congrArg String.data h
  simp only [String.data_append, List.append_assoc] at hd
  have hd2 := List.append_cancel_left hd
  have hd3 := List.append_cancel_left hd2
  have hd4 := List.append_cancel_left hd3
  simp only [List.singleton_append] at hd4
  obtain ⟨hT, hR⟩ := append_dash_split _ _ _ _
    (fun c hc => repDigits_no_dash t1 c (by rwa [repr_data] at hc))
    (fun c hc => repDigits_no_dash t2 c (by rwa [repr_data] at hc)) hd4
  constructor
  · rw [repr_data, repr_data] at hT
    exact repDigits_inj hT
  · cases r1 with
    | mk d1 =>
      cases r2 with
      | mk d2 =>
        have hd12 : d1 = d2 := by simpa using hR
        rw [hd12]

/-- Counterexample for C9: two sequential spawn calls in the same millisecond
drawing the same random suffix yield equal session ids, so the generated ids
are not unconditionally pairwise distinct. -/
theorem sessionIds_collision_counterexample :
    spawnSessionIds "wolverine"
        [(1700000000000, "k3j9q2z1a"), (1700000000000, "k3j9q2z1a")]
      = [generateSessionId "wolverine" 1700000000000 "k3j9q2z1a",
         generateSessionId "wolverine" 1700000000000 "k3j9q2z1a"] ∧
    ¬ (spawnSessionIds "wolverine"
        [(1700000000000, "k3j9q2z1a"), (1700000000000, "k3j9q2z1a")]).Pairwise
        (· ≠ ·) := by
  constructor
  · rfl
  · intro h
    exact (List.pairwise_cons.mp h).1 _ (by simp) rfl

/-- C9 (amended): for every sequence of spawn calls on one agent whose
(millisecond timestamp, random suffix) draws are pairwise distinct, the
generated session ids are pairwise distinct. -/
theorem sessionIds_distinct_amended (agentId : String)
    (draws : List (Nat × String)) (h : draws.Pairwise (· ≠ ·)) :
    (spawnSessionIds agentId draws).Pairwise (· ≠ ·) := by
  unfold spawnSessionIds
  rw [List.pairwise_map]
  refine h.imp ?_
  intro a b hne heq
  obtain ⟨ht, hr⟩ := generateSessionId_inj agentId heq
  obtain ⟨a1, a2⟩ := a
  obtain ⟨b1, b2⟩ := b
  dsimp only at ht hr
  subst ht
  subst hr
  exact hne rfl

/-- Witness for C9 (amended): three distinct draws give three distinct ids. -/
theorem sessionIds_distinct_amended_witness :
    (([(1, "aa"), (1, "ab"), (2, "aa")] : List (Nat × String)).Pairwise (· ≠ ·)) ∧
    (spawnSessionIds "wolverine" [(1, "aa"), (1, "ab"), (2, "aa")]).Pairwise
      (· ≠ ·) :=
  ⟨by decide, sessionIds_distinct_amended "wolverine" _ (by decide)⟩

end Wolverine
